import Mathlib

/-!
Shallow embedding of kinetic_swift/obj/auditor.py (class KineticAuditor).

External collaborators (the connection backend, hashlib.md5, the ring
topology in POLICIES, and ratelimit_sleep from swift.obj.auditor) are
modelled as components of an environment record; the auditor logic itself
(_audit_object, audit_object, _audit_device, audit_device, _get_devices,
run_once, the run_forever loop body) is translated line by line from the
source.  Python exceptions become explicit outcome constructors; the
mutable self.stats / byte counters become an explicit AuditorState value
threaded through the functions; observable side effects (quarantine calls,
rate-limiter invocations, which devices get audited) are recorded in a
ghost Trace value.
-/

namespace KineticSwift

/-- Bytes of one chunk streamed from an object body. -/
abbrev Chunk := List Nat

/-- A disk file as the auditor sees it: whether df.open() succeeds (False
models DiskFileNotExist being raised), the stored metadata dictionary, and
the chunks the body iterator yields. -/
structure DiskFile where
  present : Bool
  metadata : List (String × String)
  chunks : List Chunk
deriving DecidableEq

/-- Result of enumerating the object head keys of one device
(_find_objects): the connection may raise DiskFileDeviceUnavailable, may
yield all keys and finish, or may yield some keys and then raise a generic
exception. -/
inductive ScanResult
  | unavailable
  | ok (keys : List String)
  | raiseAfter (keys : List String)
deriving DecidableEq

/-- The external collaborators of the auditor. -/
structure Env where
  /-- Storage policy identifiers (POLICIES). -/
  policies : List Nat
  /-- The devs list of a policy object ring; none models a falsy dev entry
  (filtered out by the trailing if d in _get_devices). -/
  ringDevs : Nat → List (Option String)
  /-- Per-device object enumeration (get_connection + iterKeyRange). -/
  scan : String → ScanResult
  /-- get_diskfile_from_audit_location. -/
  getDiskfile : String → String → DiskFile
  /-- hashlib.md5 hexdigest of a full byte stream; the incremental
  etag.update calls are equivalent to hashing the concatenation. -/
  hexdigest : List Nat → String
  /-- swift.obj.auditor.ratelimit_sleep: previous running time, rate,
  incr_by bytes; returns the new running time. -/
  ratelimit_sleep : Rat → Rat → Nat → Rat

/-- The configuration values read in KineticAuditor.__init__. -/
structure Conf where
  max_files_per_second : Rat
  max_bytes_per_second : Rat
deriving DecidableEq

/-- KineticAuditor.interval, hard-coded to 30 in __init__. -/
def interval : Rat := 30

/-- The mutable per-sweep counters of the auditor: the self.stats
defaultdict entries that are ever written, plus the byte counters and the
counters reset_stats zeroes. -/
structure AuditorState where
  found_objects : Nat
  success : Nat
  failures : Nat
  device_success : Nat
  device_failures : Nat
  bytes_running_time : Rat
  bytes_processed : Nat
  total_bytes_processed : Nat
  total_files_processed : Nat
  passes : Nat
  quarantines : Nat
  errors : Nat
deriving DecidableEq

/-- KineticAuditor.reset_stats: every counter back to zero. -/
def reset_stats : AuditorState :=
  { found_objects := 0, success := 0, failures := 0, device_success := 0,
    device_failures := 0, bytes_running_time := 0, bytes_processed := 0,
    total_bytes_processed := 0, total_files_processed := 0, passes := 0,
    quarantines := 0, errors := 0 }

/-- Ghost record of the observable side effects of a sweep: number of
df.quarantine() calls, the ratelimit_sleep invocations (rate used,
incr_by), and the devices audit_device was called on, in order. -/
structure Trace where
  quarantines : Nat
  rlCalls : List (Rat × Nat)
  devices : List String
deriving DecidableEq

/-- The empty trace at the start of a sweep. -/
def Trace.empty : Trace := { quarantines := 0, rlCalls := [], devices := [] }

/-- Python dict.get on the metadata dictionary. -/
def dictGet (m : List (String × String)) (k : String) : Option String :=
  (m.find? (fun p => p.1 == k)).map (fun p => p.2)

/-- Decimal digit accumulator: consumes the whole character list, failing
on the first non-digit. -/
def parseDigitsAux (cs : List Char) : Option Nat :=
  cs.foldl
    (fun acc c =>
      match acc with
      | none => none
      | some n =>
        if c.isDigit then some (n * 10 + (c.toNat - 48)) else none)
    (some 0)

/-- At least one decimal digit. -/
def parseDigits (cs : List Char) : Option Nat :=
  if cs.isEmpty then none else parseDigitsAux cs

/-- Python int() on a string: optional sign then decimal digits. -/
def parseInt? (s : String) : Option Int :=
  match s.toList with
  | '-' :: rest => (parseDigits rest).map (fun n => -(n : Int))
  | '+' :: rest => (parseDigits rest).map (fun n => (n : Int))
  | cs => (parseDigits cs).map (fun n => (n : Int))

/-- Python int(metadata.get(k)): none models the TypeError or ValueError
raised when the value is missing or does not parse as an integer. -/
def pyInt? (s : Option String) : Option Int :=
  s.bind parseInt?

/-- How KineticAuditor._audit_object ends: df.open() raised
DiskFileNotExist; both checks passed; the size check quarantined; the etag
check quarantined; or int(metadata.get) raised (caught by audit_object). -/
inductive ObjOutcome
  | notFound
  | passed
  | sizeMismatch
  | etagMismatch
  | raised
deriving DecidableEq

/-- Side effects of auditing one object: quarantine calls, whether the
etag comparison was reached, and the ratelimit_sleep invocations. -/
structure ObjEffects where
  quarantines : Nat
  etagCompared : Bool
  rlCalls : List (Rat × Nat)
deriving DecidableEq

/-- One iteration of the chunk loop of _audit_object: update the running
bytes_running_time via ratelimit_sleep and the two byte counters. -/
def chunkStep (env : Env) (cfg : Conf) (st : AuditorState) (c : Chunk) :
    AuditorState :=
  { st with
    bytes_running_time :=
      env.ratelimit_sleep st.bytes_running_time cfg.max_bytes_per_second
        c.length,
    bytes_processed := st.bytes_processed + c.length,
    total_bytes_processed := st.total_bytes_processed + c.length }

/-- The chunk loop of _audit_object: returns the updated state, the
running size counter, and the ratelimit_sleep invocations in order. -/
def streamChunks (env : Env) (cfg : Conf) (st : AuditorState) :
    List Chunk → AuditorState × Nat × List (Rat × Nat)
  | [] => (st, 0, [])
  | c :: rest =>
    let st1 := chunkStep env cfg st c
    let r := streamChunks env cfg st1 rest
    (r.1, c.length + r.2.1, (cfg.max_bytes_per_second, c.length) :: r.2.2)

/-- KineticAuditor._audit_object, lines 87-124 of auditor.py.  Opens the
diskfile (notFound on DiskFileNotExist), streams every chunk through the
digest, the size counter and the byte rate limiter, then checks size
against int(metadata.get Content-Length) (raised if that raises) and
finally the hex digest against metadata.get ETag; each failed check calls
df.quarantine() once and returns False. -/
def _audit_object (env : Env) (cfg : Conf) (st : AuditorState)
    (device head_key : String) : ObjOutcome × AuditorState × ObjEffects :=
  let df := env.getDiskfile device head_key
  if df.present then
    let r := streamChunks env cfg st df.chunks
    let st1 := r.1
    let size := r.2.1
    let calls := r.2.2
    match pyInt? (dictGet df.metadata "Content-Length") with
    | none => (.raised, st1, ⟨0, false, calls⟩)
    | some cl =>
      if (size : Int) ≠ cl then
        (.sizeMismatch, st1, ⟨1, false, calls⟩)
      else
        let got_etag := env.hexdigest df.chunks.flatten
        if some got_etag ≠ dictGet df.metadata "ETag" then
          (.etagMismatch, st1, ⟨1, true, calls⟩)
        else
          (.passed, st1, ⟨0, true, calls⟩)
  else
    (.notFound, st, ⟨0, false, []⟩)

/-- KineticAuditor.audit_object: _audit_object with every exception caught
and turned into success = False; notFound and passed return True. -/
def audit_object (env : Env) (cfg : Conf) (st : AuditorState)
    (device location : String) : Bool × AuditorState × ObjEffects :=
  let r := _audit_object env cfg st device location
  match r.1 with
  | .notFound => (true, r.2)
  | .passed => (true, r.2)
  | .sizeMismatch => (false, r.2)
  | .etagMismatch => (false, r.2)
  | .raised => (false, r.2)

/-- The body of the for loop of _audit_device for one enumerated location:
increment found_objects, audit the object, then increment exactly one of
success or failures; merge the object effects into the sweep trace. -/
def auditLocationStep (env : Env) (cfg : Conf) (device : String)
    (acc : AuditorState × Trace) (location : String) :
    AuditorState × Trace :=
  let st1 := { acc.1 with found_objects := acc.1.found_objects + 1 }
  let r := audit_object env cfg st1 device location
  let st2 := r.2.1
  let eff := r.2.2
  let st3 :=
    if r.1 then { st2 with success := st2.success + 1 }
    else { st2 with failures := st2.failures + 1 }
  (st3,
   { acc.2 with
     quarantines := acc.2.quarantines + eff.quarantines,
     rlCalls := acc.2.rlCalls ++ eff.rlCalls })

/-- The for loop of _audit_device over a list of enumerated locations. -/
def auditLocations (env : Env) (cfg : Conf) (device : String)
    (keys : List String) (st : AuditorState) (tr : Trace) :
    AuditorState × Trace :=
  keys.foldl (auditLocationStep env cfg device) (st, tr)

/-- How KineticAuditor._audit_device ends at the device level. -/
inductive DevOutcome
  | completed
  | unavailable
  | raised
deriving DecidableEq

/-- KineticAuditor._audit_device: iterate the enumerated locations,
auditing each; the enumeration itself may raise DiskFileDeviceUnavailable
before yielding anything or a generic exception after some keys. -/
def _audit_device (env : Env) (cfg : Conf) (st : AuditorState) (tr : Trace)
    (device : String) : DevOutcome × AuditorState × Trace :=
  match env.scan device with
  | .unavailable => (.unavailable, st, tr)
  | .ok keys =>
    let p := auditLocations env cfg device keys st tr
    (.completed, p.1, p.2)
  | .raiseAfter keys =>
    let p := auditLocations env cfg device keys st tr
    (.raised, p.1, p.2)

/-- KineticAuditor.audit_device: catch DiskFileDeviceUnavailable and any
other exception (device.failures), otherwise count device.success. -/
def audit_device (env : Env) (cfg : Conf) (st : AuditorState) (tr : Trace)
    (device : String) : AuditorState × Trace :=
  let r := _audit_device env cfg st tr device
  let st1 := r.2.1
  let tr1 := { r.2.2 with devices := r.2.2.devices ++ [device] }
  match r.1 with
  | .completed =>
    ({ st1 with device_success := st1.device_success + 1 }, tr1)
  | .unavailable =>
    ({ st1 with device_failures := st1.device_failures + 1 }, tr1)
  | .raised =>
    ({ st1 with device_failures := st1.device_failures + 1 }, tr1)

/-- KineticAuditor._get_devices: the set of dev names over every policy
object ring, keeping only truthy dev entries; set() is modelled by
dedup. -/
def _get_devices (env : Env) : List String :=
  (((env.policies.map env.ringDevs).flatten).filterMap id).dedup

/-- The device list run_once iterates: override_devices or
self._get_devices() with Python or-semantics on the empty list. -/
def devicesFor (env : Env) (override_devices : List String) : List String :=
  if override_devices.isEmpty then _get_devices env else override_devices

/-- KineticAuditor.run_once: reset the stats (discarding whatever state the
auditor had), resolve the device list, and audit each device in order.  The
incoming state is a genuine parameter of the method only to show it is
discarded by reset_stats. -/
def run_once (env : Env) (cfg : Conf) (_st : AuditorState)
    (override_devices : List String) : AuditorState × Trace :=
  (devicesFor env override_devices).foldl
    (fun acc d => audit_device env cfg acc.1 acc.2 d)
    (reset_stats, Trace.empty)

/-- Observable events of one iteration of the while True loop of
run_forever, parametrised by the measured elapsed sweep time. -/
inductive SchedEvent
  | sweep
  | reconDump (key : String) (value : Rat)
  | sleepFor (d : Rat)
  | resetStats
deriving DecidableEq

/-- One iteration of run_forever, lines 60-71 of auditor.py: run the sweep,
dump the elapsed time into the recon cache, sleep the remainder of the
interval only when the sweep finished early, then reset the stats. -/
def run_forever_iteration (elapsed : Rat) : List SchedEvent :=
  [SchedEvent.sweep, SchedEvent.reconDump "object_audit_sweep" elapsed] ++
    (if elapsed < interval then [SchedEvent.sleepFor (interval - elapsed)]
     else []) ++
    [SchedEvent.resetStats]

/-- Pointwise order on the counters named by the stats invariant: a sweep
step may only grow them. -/
def statsLe (a b : AuditorState) : Prop :=
  a.found_objects ≤ b.found_objects ∧ a.success ≤ b.success ∧
  a.failures ≤ b.failures ∧ a.device_success ≤ b.device_success ∧
  a.device_failures ≤ b.device_failures ∧
  a.bytes_processed ≤ b.bytes_processed ∧
  a.total_bytes_processed ≤ b.total_bytes_processed ∧
  a.total_files_processed ≤ b.total_files_processed

/-- Every present diskfile of the environment passes both integrity
checks: its Content-Length parses to its streamed size and its ETag is the
digest of its content.  This is the uncorrupted-device-set hypothesis. -/
def UncorruptedEnv (env : Env) : Prop :=
  ∀ device key : String,
    (env.getDiskfile device key).present = true →
      pyInt? (dictGet (env.getDiskfile device key).metadata
          "Content-Length") =
        some ((env.getDiskfile device key).chunks.flatten.length : Int) ∧
      dictGet (env.getDiskfile device key).metadata "ETag" =
        some (env.hexdigest (env.getDiskfile device key).chunks.flatten)

/-- A sample object of two one-byte chunks whose metadata matches. -/
def goodFile : DiskFile :=
  { present := true,
    metadata := [("Content-Length", "2"), ("ETag", "d2")],
    chunks := [[10], [20]] }

/-- A sample object whose metadata announces three bytes but whose body
streams only two. -/
def shortFile : DiskFile :=
  { present := true,
    metadata := [("Content-Length", "3"), ("ETag", "d2")],
    chunks := [[10], [20]] }

/-- A sample object with correct size but wrong ETag. -/
def badEtagFile : DiskFile :=
  { present := true,
    metadata := [("Content-Length", "2"), ("ETag", "nope")],
    chunks := [[10], [20]] }

/-- A sample object whose open() raises DiskFileNotExist. -/
def missingFile : DiskFile :=
  { present := false, metadata := [], chunks := [] }

/-- A toy digest function standing in for md5 hexdigest: two-byte streams
hash to d2, everything else to dX. -/
def sampleHexdigest (bs : List Nat) : String :=
  if bs.length = 2 then "d2" else "dX"

/-- A concrete environment exercising every object outcome: device dev-u
is unreachable, every other device enumerates the four sample keys. -/
def sampleEnv : Env :=
  { policies := [0, 1],
    ringDevs := fun p =>
      if p = 0 then [some "dev1", none, some "dev2"] else [some "dev2"],
    scan := fun d =>
      if d = "dev-u" then ScanResult.unavailable
      else ScanResult.ok ["good", "short", "badetag", "gone"],
    getDiskfile := fun _ k =>
      if k = "good" then goodFile
      else if k = "short" then shortFile
      else if k = "badetag" then badEtagFile
      else missingFile,
    hexdigest := sampleHexdigest,
    ratelimit_sleep := fun t _ _ => t }

/-- An environment in which every diskfile is the matching goodFile and
every device enumerates two keys. -/
def goodEnv : Env :=
  { policies := [0],
    ringDevs := fun _ => [some "dev1"],
    scan := fun _ => ScanResult.ok ["a", "b"],
    getDiskfile := fun _ _ => goodFile,
    hexdigest := sampleHexdigest,
    ratelimit_sleep := fun t _ _ => t }

/-- The default configuration values of __init__. -/
def sampleConf : Conf :=
  { max_files_per_second := 20, max_bytes_per_second := 10000000 }

/-- The size counter of the chunk loop is the length of the streamed
content. -/
theorem streamChunks_size (env : Env) (cfg : Conf) :
    ∀ (cs : List Chunk) (st : AuditorState),
      (streamChunks env cfg st cs).2.1 = cs.flatten.length := by
  intro cs
  induction cs with
  | nil => intro st; rfl
  | cons c rest ih => intro st; simp [streamChunks, ih]

/-- The chunk loop touches only the byte counters: every counting field
of the state is left unchanged. -/
theorem streamChunks_counters (env : Env) (cfg : Conf) :
    ∀ (cs : List Chunk) (st : AuditorState),
      (streamChunks env cfg st cs).1.found_objects = st.found_objects ∧
      (streamChunks env cfg st cs).1.success = st.success ∧
      (streamChunks env cfg st cs).1.failures = st.failures ∧
      (streamChunks env cfg st cs).1.device_success = st.device_success ∧
      (streamChunks env cfg st cs).1.device_failures = st.device_failures ∧
      (streamChunks env cfg st cs).1.total_files_processed =
        st.total_files_processed := by
  intro cs
  induction cs with
  | nil => intro st; exact ⟨rfl, rfl, rfl, rfl, rfl, rfl⟩
  | cons c rest ih =>
    intro st
    simpa [streamChunks, chunkStep] using ih (chunkStep env cfg st c)

/-- The byte counters never decrease across the chunk loop. -/
theorem streamChunks_bytes_mono (env : Env) (cfg : Conf) :
    ∀ (cs : List Chunk) (st : AuditorState),
      st.bytes_processed ≤ (streamChunks env cfg st cs).1.bytes_processed ∧
      st.total_bytes_processed ≤
        (streamChunks env cfg st cs).1.total_bytes_processed := by
  intro cs
  induction cs with
  | nil => intro st; exact ⟨le_refl _, le_refl _⟩
  | cons c rest ih =>
    intro st
    have h := ih (chunkStep env cfg st c)
    simp only [streamChunks]
    constructor
    · exact le_trans (by simp [chunkStep]) h.1
    · exact le_trans (by simp [chunkStep]) h.2

/-- Every rate-limiter call of the chunk loop uses the byte budget. -/
theorem streamChunks_rl (env : Env) (cfg : Conf) :
    ∀ (cs : List Chunk) (st : AuditorState),
      ∀ p ∈ (streamChunks env cfg st cs).2.2,
        p.1 = cfg.max_bytes_per_second := by
  intro cs
  induction cs with
  | nil => intro st p h; simp [streamChunks] at h
  | cons c rest ih =>
    intro st p h
    simp only [streamChunks, List.mem_cons] at h
    rcases h with h | h
    · rw [h]
    · exact ih (chunkStep env cfg st c) p h

/-- Branch characterization: a missing object produces notFound with no
state change, no quarantine and no rate-limiter call. -/
theorem _audit_object_notFound (env : Env) (cfg : Conf) (st : AuditorState)
    (device key : String)
    (hp : (env.getDiskfile device key).present = false) :
    _audit_object env cfg st device key =
      (ObjOutcome.notFound, st, ⟨0, false, []⟩) := by
  simp [_audit_object, hp]

/-- Branch characterization: matching size and etag produce passed with no
quarantine, after the digest comparison. -/
theorem _audit_object_passed (env : Env) (cfg : Conf) (st : AuditorState)
    (device key : String)
    (hp : (env.getDiskfile device key).present = true)
    (hcl : pyInt? (dictGet (env.getDiskfile device key).metadata
        "Content-Length") =
      some ((env.getDiskfile device key).chunks.flatten.length : Int))
    (het : dictGet (env.getDiskfile device key).metadata "ETag" =
      some (env.hexdigest (env.getDiskfile device key).chunks.flatten)) :
    _audit_object env cfg st device key =
      (ObjOutcome.passed,
       (streamChunks env cfg st (env.getDiskfile device key).chunks).1,
       ⟨0, true,
        (streamChunks env cfg st (env.getDiskfile device key).chunks).2.2⟩)
    := by
  simp [_audit_object, hp, hcl, streamChunks_size, het]

/-- Branch characterization: a size mismatch quarantines once without ever
comparing the digest. -/
theorem _audit_object_sizeMismatch (env : Env) (cfg : Conf)
    (st : AuditorState) (device key : String) (cl : Int)
    (hp : (env.getDiskfile device key).present = true)
    (hcl : pyInt? (dictGet (env.getDiskfile device key).metadata
        "Content-Length") = some cl)
    (hne : ((env.getDiskfile device key).chunks.flatten.length : Int) ≠ cl) :
    _audit_object env cfg st device key =
      (ObjOutcome.sizeMismatch,
       (streamChunks env cfg st (env.getDiskfile device key).chunks).1,
       ⟨1, false,
        (streamChunks env cfg st (env.getDiskfile device key).chunks).2.2⟩)
    := by
  have hs := streamChunks_size env cfg (env.getDiskfile device key).chunks st
  simp only [_audit_object, hp, eq_self_iff_true, if_true, hcl]
  rw [hs, if_pos hne]

/-- Branch characterization: correct size but wrong etag quarantines once
after the digest comparison. -/
theorem _audit_object_etagMismatch (env : Env) (cfg : Conf)
    (st : AuditorState) (device key : String)
    (hp : (env.getDiskfile device key).present = true)
    (hcl : pyInt? (dictGet (env.getDiskfile device key).metadata
        "Content-Length") =
      some ((env.getDiskfile device key).chunks.flatten.length : Int))
    (hne : some (env.hexdigest (env.getDiskfile device key).chunks.flatten)
      ≠ dictGet (env.getDiskfile device key).metadata "ETag") :
    _audit_object env cfg st device key =
      (ObjOutcome.etagMismatch,
       (streamChunks env cfg st (env.getDiskfile device key).chunks).1,
       ⟨1, true,
        (streamChunks env cfg st (env.getDiskfile device key).chunks).2.2⟩)
    := by
  simp [_audit_object, hp, hcl, streamChunks_size, hne]

/-- C1: an object whose streamed size equals the metadata Content-Length
and whose streamed digest equals the metadata ETag is reported as a
success by the audit (the verification passes and audit_object returns
True) and quarantine is never invoked on it. -/
theorem verify_match_success (env : Env) (cfg : Conf) (st : AuditorState)
    (device key : String)
    (hp : (env.getDiskfile device key).present = true)
    (hcl : pyInt? (dictGet (env.getDiskfile device key).metadata
        "Content-Length") =
      some ((env.getDiskfile device key).chunks.flatten.length : Int))
    (het : dictGet (env.getDiskfile device key).metadata "ETag" =
      some (env.hexdigest (env.getDiskfile device key).chunks.flatten)) :
    (_audit_object env cfg st device key).1 = ObjOutcome.passed ∧
    (_audit_object env cfg st device key).2.2.quarantines = 0 ∧
    (audit_object env cfg st device key).1 = true := by
  have h := _audit_object_passed env cfg st device key hp hcl het
  exact ⟨by rw [h], by rw [h], by simp [audit_object, h]⟩

/-- Witness for C1: the matching sample object passes and is never
quarantined. -/
theorem verify_match_success_witness :
    ((sampleEnv.getDiskfile "dev1" "good").present = true ∧
     pyInt? (dictGet (sampleEnv.getDiskfile "dev1" "good").metadata
         "Content-Length") =
       some ((sampleEnv.getDiskfile "dev1" "good").chunks.flatten.length
         : Int) ∧
     dictGet (sampleEnv.getDiskfile "dev1" "good").metadata "ETag" =
       some (sampleEnv.hexdigest
         (sampleEnv.getDiskfile "dev1" "good").chunks.flatten)) ∧
    ((_audit_object sampleEnv sampleConf reset_stats "dev1" "good").1 =
       ObjOutcome.passed ∧
     (_audit_object sampleEnv sampleConf reset_stats "dev1"
       "good").2.2.quarantines = 0 ∧
     (audit_object sampleEnv sampleConf reset_stats "dev1" "good").1 =
       true) :=
  ⟨⟨rfl, rfl, rfl⟩,
   verify_match_success sampleEnv sampleConf reset_stats "dev1" "good"
     rfl rfl rfl⟩

/-- C2: a size mismatch quarantines exactly once with the size reason and
never reaches the digest comparison; a size match with a mismatched etag
quarantines exactly once with the etag reason after comparing the digest;
both outcomes are reported as failures (audit_object returns False), and
the size check precedes the digest check. -/
theorem verify_mismatch_quarantine (env : Env) (cfg : Conf)
    (st : AuditorState) (device key : String) :
    (∀ cl : Int,
      (env.getDiskfile device key).present = true →
      pyInt? (dictGet (env.getDiskfile device key).metadata
          "Content-Length") = some cl →
      ((env.getDiskfile device key).chunks.flatten.length : Int) ≠ cl →
      (_audit_object env cfg st device key).1 = ObjOutcome.sizeMismatch ∧
      (_audit_object env cfg st device key).2.2.quarantines = 1 ∧
      (_audit_object env cfg st device key).2.2.etagCompared = false ∧
      (audit_object env cfg st device key).1 = false) ∧
    ((env.getDiskfile device key).present = true →
      pyInt? (dictGet (env.getDiskfile device key).metadata
          "Content-Length") =
        some ((env.getDiskfile device key).chunks.flatten.length : Int) →
      some (env.hexdigest (env.getDiskfile device key).chunks.flatten) ≠
        dictGet (env.getDiskfile device key).metadata "ETag" →
      (_audit_object env cfg st device key).1 = ObjOutcome.etagMismatch ∧
      (_audit_object env cfg st device key).2.2.quarantines = 1 ∧
      (_audit_object env cfg st device key).2.2.etagCompared = true ∧
      (audit_object env cfg st device key).1 = false) := by
  constructor
  · intro cl hp hcl hne
    have h := _audit_object_sizeMismatch env cfg st device key cl hp hcl hne
    exact ⟨by rw [h], by rw [h], by rw [h], by simp [audit_object, h]⟩
  · intro hp hcl hne
    have h := _audit_object_etagMismatch env cfg st device key hp hcl hne
    exact ⟨by rw [h], by rw [h], by rw [h], by simp [audit_object, h]⟩

/-- Witness for C2: the short sample object is quarantined once for size
before any digest comparison, the bad-etag sample object once for etag. -/
theorem verify_mismatch_quarantine_witness :
    (((sampleEnv.getDiskfile "dev1" "short").present = true ∧
      pyInt? (dictGet (sampleEnv.getDiskfile "dev1" "short").metadata
          "Content-Length") = some 3 ∧
      ((sampleEnv.getDiskfile "dev1" "short").chunks.flatten.length : Int)
        ≠ 3) ∧
     (_audit_object sampleEnv sampleConf reset_stats "dev1" "short").1 =
       ObjOutcome.sizeMismatch ∧
     (_audit_object sampleEnv sampleConf reset_stats "dev1"
       "short").2.2.quarantines = 1 ∧
     (_audit_object sampleEnv sampleConf reset_stats "dev1"
       "short").2.2.etagCompared = false ∧
     (audit_object sampleEnv sampleConf reset_stats "dev1" "short").1 =
       false) ∧
    (((sampleEnv.getDiskfile "dev1" "badetag").present = true ∧
      pyInt? (dictGet (sampleEnv.getDiskfile "dev1" "badetag").metadata
          "Content-Length") =
        some ((sampleEnv.getDiskfile "dev1"
          "badetag").chunks.flatten.length : Int) ∧
      some (sampleEnv.hexdigest
          (sampleEnv.getDiskfile "dev1" "badetag").chunks.flatten) ≠
        dictGet (sampleEnv.getDiskfile "dev1" "badetag").metadata "ETag") ∧
     (_audit_object sampleEnv sampleConf reset_stats "dev1" "badetag").1 =
       ObjOutcome.etagMismatch ∧
     (_audit_object sampleEnv sampleConf reset_stats "dev1"
       "badetag").2.2.quarantines = 1 ∧
     (_audit_object sampleEnv sampleConf reset_stats "dev1"
       "badetag").2.2.etagCompared = true ∧
     (audit_object sampleEnv sampleConf reset_stats "dev1" "badetag").1 =
       false) :=
  ⟨⟨⟨rfl, rfl, by decide⟩,
    (verify_mismatch_quarantine sampleEnv sampleConf reset_stats "dev1"
      "short").1 3 rfl rfl (by decide)⟩,
   ⟨⟨rfl, rfl, by decide⟩,
    (verify_mismatch_quarantine sampleEnv sampleConf reset_stats "dev1"
      "badetag").2 rfl rfl (by decide)⟩⟩

/-- C3: an object missing at open time yields notFound with no quarantine,
no content read and no state change; audit_object reports it as a success
and the device loop counts it toward the success counter, not failures. -/
theorem verify_missing_skipped (env : Env) (cfg : Conf) (st : AuditorState)
    (tr : Trace) (device key : String)
    (hp : (env.getDiskfile device key).present = false) :
    _audit_object env cfg st device key =
      (ObjOutcome.notFound, st, ⟨0, false, []⟩) ∧
    (audit_object env cfg st device key).1 = true ∧
    (auditLocationStep env cfg device (st, tr) key).1.success =
      st.success + 1 ∧
    (auditLocationStep env cfg device (st, tr) key).1.failures =
      st.failures ∧
    (auditLocationStep env cfg device (st, tr) key).1.found_objects =
      st.found_objects + 1 ∧
    (auditLocationStep env cfg device (st, tr) key).2.quarantines =
      tr.quarantines := by
  have h1 := _audit_object_notFound env cfg st device key hp
  have h2 := _audit_object_notFound env cfg
    { st with found_objects := st.found_objects + 1 } device key hp
  refine ⟨h1, by simp [audit_object, h1], ?_, ?_, ?_, ?_⟩ <;>
    simp [auditLocationStep, audit_object, h2]

/-- Witness for C3: the missing sample object is skipped and counted a
success. -/
theorem verify_missing_skipped_witness :
    ((sampleEnv.getDiskfile "dev1" "gone").present = false) ∧
    (_audit_object sampleEnv sampleConf reset_stats "dev1" "gone" =
      (ObjOutcome.notFound, reset_stats, ⟨0, false, []⟩) ∧
     (audit_object sampleEnv sampleConf reset_stats "dev1" "gone").1 =
       true ∧
     (auditLocationStep sampleEnv sampleConf "dev1"
       (reset_stats, Trace.empty) "gone").1.success =
       reset_stats.success + 1 ∧
     (auditLocationStep sampleEnv sampleConf "dev1"
       (reset_stats, Trace.empty) "gone").1.failures =
       reset_stats.failures ∧
     (auditLocationStep sampleEnv sampleConf "dev1"
       (reset_stats, Trace.empty) "gone").1.found_objects =
       reset_stats.found_objects + 1 ∧
     (auditLocationStep sampleEnv sampleConf "dev1"
       (reset_stats, Trace.empty) "gone").2.quarantines =
       Trace.empty.quarantines) :=
  ⟨rfl,
   verify_missing_skipped sampleEnv sampleConf reset_stats Trace.empty
     "dev1" "gone" rfl⟩

/-- statsLe is reflexive. -/
theorem statsLe_refl (a : AuditorState) : statsLe a a :=
  ⟨le_refl _, le_refl _, le_refl _, le_refl _, le_refl _, le_refl _,
   le_refl _, le_refl _⟩

/-- statsLe is transitive. -/
theorem statsLe_trans {a b c : AuditorState} (h1 : statsLe a b)
    (h2 : statsLe b c) : statsLe a c := by
  obtain ⟨x1, x2, x3, x4, x5, x6, x7, x8⟩ := h1
  obtain ⟨y1, y2, y3, y4, y5, y6, y7, y8⟩ := h2
  exact ⟨le_trans x1 y1, le_trans x2 y2, le_trans x3 y3, le_trans x4 y4,
         le_trans x5 y5, le_trans x6 y6, le_trans x7 y7, le_trans x8 y8⟩

/-- Whatever branch _audit_object takes, the resulting state and
rate-limiter calls are either untouched (missing object) or exactly those
of the chunk loop. -/
theorem _audit_object_shape (env : Env) (cfg : Conf) (st : AuditorState)
    (device key : String) :
    ((_audit_object env cfg st device key).2.1 = st ∧
     (_audit_object env cfg st device key).2.2.rlCalls = []) ∨
    ((_audit_object env cfg st device key).2.1 =
       (streamChunks env cfg st (env.getDiskfile device key).chunks).1 ∧
     (_audit_object env cfg st device key).2.2.rlCalls =
       (streamChunks env cfg st (env.getDiskfile device key).chunks).2.2)
    := by
  by_cases hp : (env.getDiskfile device key).present = true
  · right
    simp only [_audit_object, hp, eq_self_iff_true, if_true]
    cases pyInt? (dictGet (env.getDiskfile device key).metadata
        "Content-Length") with
    | none => exact ⟨rfl, rfl⟩
    | some cl =>
      dsimp only
      by_cases h1 : (((streamChunks env cfg st
          (env.getDiskfile device key).chunks).2.1 : Int) ≠ cl)
      · rw [if_pos h1]; exact ⟨rfl, rfl⟩
      · rw [if_neg h1]
        by_cases h2 : (some (env.hexdigest
            (env.getDiskfile device key).chunks.flatten) ≠
          dictGet (env.getDiskfile device key).metadata "ETag")
        · rw [if_pos h2]; exact ⟨rfl, rfl⟩
        · rw [if_neg h2]; exact ⟨rfl, rfl⟩
  · left
    have hp2 : (env.getDiskfile device key).present = false :=
      Bool.not_eq_true _ ▸ Bool.eq_false_iff.mpr (fun h => hp h)
    rw [_audit_object_notFound env cfg st device key hp2]
    exact ⟨rfl, rfl⟩

/-- audit_object only re-tags the boolean; state and effects are those of
_audit_object. -/
theorem audit_object_snd (env : Env) (cfg : Conf) (st : AuditorState)
    (device key : String) :
    (audit_object env cfg st device key).2 =
      (_audit_object env cfg st device key).2 := by
  simp only [audit_object]
  cases (_audit_object env cfg st device key).1 <;> rfl

/-- audit_object leaves every counting field of the state unchanged. -/
theorem audit_object_counters (env : Env) (cfg : Conf) (st : AuditorState)
    (device key : String) :
    (audit_object env cfg st device key).2.1.found_objects =
      st.found_objects ∧
    (audit_object env cfg st device key).2.1.success = st.success ∧
    (audit_object env cfg st device key).2.1.failures = st.failures ∧
    (audit_object env cfg st device key).2.1.device_success =
      st.device_success ∧
    (audit_object env cfg st device key).2.1.device_failures =
      st.device_failures ∧
    (audit_object env cfg st device key).2.1.total_files_processed =
      st.total_files_processed := by
  rw [audit_object_snd]
  rcases _audit_object_shape env cfg st device key with ⟨h, _⟩ | ⟨h, _⟩
  · rw [h]; exact ⟨rfl, rfl, rfl, rfl, rfl, rfl⟩
  · rw [h]
    exact streamChunks_counters env cfg
      (env.getDiskfile device key).chunks st

/-- audit_object never decreases the byte counters. -/
theorem audit_object_bytes_mono (env : Env) (cfg : Conf)
    (st : AuditorState) (device key : String) :
    st.bytes_processed ≤
      (audit_object env cfg st device key).2.1.bytes_processed ∧
    st.total_bytes_processed ≤
      (audit_object env cfg st device key).2.1.total_bytes_processed := by
  rw [audit_object_snd]
  rcases _audit_object_shape env cfg st device key with ⟨h, _⟩ | ⟨h, _⟩
  · rw [h]; exact ⟨le_refl _, le_refl _⟩
  · rw [h]
    exact streamChunks_bytes_mono env cfg
      (env.getDiskfile device key).chunks st

/-- Every rate-limiter call recorded by audit_object uses the byte
budget. -/
theorem audit_object_rl (env : Env) (cfg : Conf) (st : AuditorState)
    (device key : String) :
    ∀ p ∈ (audit_object env cfg st device key).2.2.rlCalls,
      p.1 = cfg.max_bytes_per_second := by
  rw [audit_object_snd]
  rcases _audit_object_shape env cfg st device key with ⟨_, h⟩ | ⟨_, h⟩
  · rw [h]; intro p hp; simp at hp
  · rw [h]
    exact streamChunks_rl env cfg (env.getDiskfile device key).chunks st

/-- The per-location loop body: found_objects rises by one, exactly one of
success and failures rises by one, and the device and files counters are
untouched. -/
theorem auditLocationStep_counts (env : Env) (cfg : Conf) (device : String)
    (acc : AuditorState × Trace) (key : String) :
    (auditLocationStep env cfg device acc key).1.found_objects =
      acc.1.found_objects + 1 ∧
    (((auditLocationStep env cfg device acc key).1.success =
        acc.1.success + 1 ∧
      (auditLocationStep env cfg device acc key).1.failures =
        acc.1.failures) ∨
     ((auditLocationStep env cfg device acc key).1.success =
        acc.1.success ∧
      (auditLocationStep env cfg device acc key).1.failures =
        acc.1.failures + 1)) ∧
    (auditLocationStep env cfg device acc key).1.device_success =
      acc.1.device_success ∧
    (auditLocationStep env cfg device acc key).1.device_failures =
      acc.1.device_failures ∧
    (auditLocationStep env cfg device acc key).1.total_files_processed =
      acc.1.total_files_processed := by
  obtain ⟨h1, h2, h3, h4, h5, h6⟩ := audit_object_counters env cfg
    { acc.1 with found_objects := acc.1.found_objects + 1 } device key
  simp only [auditLocationStep]
  by_cases hb : (audit_object env cfg
      { acc.1 with found_objects := acc.1.found_objects + 1 }
      device key).1 = true
  · rw [if_pos hb]
    exact ⟨by simpa using h1, Or.inl ⟨by simpa using h2, by simpa using h3⟩,
           by simpa using h4, by simpa using h5, by simpa using h6⟩
  · rw [if_neg hb]
    exact ⟨by simpa using h1, Or.inr ⟨by simpa using h2, by simpa using h3⟩,
           by simpa using h4, by simpa using h5, by simpa using h6⟩

/-- The per-location loop body appends to the trace: the device list is
untouched, the quarantine count and rate-limiter calls grow by exactly the
audited object's effects. -/
theorem auditLocationStep_trace (env : Env) (cfg : Conf) (device : String)
    (acc : AuditorState × Trace) (key : String) :
    (auditLocationStep env cfg device acc key).2.devices =
      acc.2.devices ∧
    (auditLocationStep env cfg device acc key).2.quarantines =
      acc.2.quarantines +
        (audit_object env cfg
          { acc.1 with found_objects := acc.1.found_objects + 1 }
          device key).2.2.quarantines ∧
    (auditLocationStep env cfg device acc key).2.rlCalls =
      acc.2.rlCalls ++
        (audit_object env cfg
          { acc.1 with found_objects := acc.1.found_objects + 1 }
          device key).2.2.rlCalls := by
  simp [auditLocationStep]

/-- The per-location loop body never decreases the byte counters. -/
theorem auditLocationStep_bytes_mono (env : Env) (cfg : Conf)
    (device : String) (acc : AuditorState × Trace) (key : String) :
    acc.1.bytes_processed ≤
      (auditLocationStep env cfg device acc key).1.bytes_processed ∧
    acc.1.total_bytes_processed ≤
      (auditLocationStep env cfg device acc key).1.total_bytes_processed
    := by
  obtain ⟨h1, h2⟩ := audit_object_bytes_mono env cfg
    { acc.1 with found_objects := acc.1.found_objects + 1 } device key
  simp only [auditLocationStep]
  by_cases hb : (audit_object env cfg
      { acc.1 with found_objects := acc.1.found_objects + 1 }
      device key).1 = true
  · rw [if_pos hb]; exact ⟨by simpa using h1, by simpa using h2⟩
  · rw [if_neg hb]; exact ⟨by simpa using h1, by simpa using h2⟩

/-- The per-location loop body only grows the sweep counters. -/
theorem auditLocationStep_statsLe (env : Env) (cfg : Conf)
    (device : String) (acc : AuditorState × Trace) (key : String) :
    statsLe acc.1 (auditLocationStep env cfg device acc key).1 := by
  obtain ⟨hf, hsf, hds, hdf, htf⟩ :=
    auditLocationStep_counts env cfg device acc key
  obtain ⟨hb1, hb2⟩ := auditLocationStep_bytes_mono env cfg device acc key
  refine ⟨by omega, ?_, ?_, le_of_eq hds.symm, le_of_eq hdf.symm, hb1, hb2,
          le_of_eq htf.symm⟩
  · rcases hsf with ⟨h, _⟩ | ⟨h, _⟩ <;> omega
  · rcases hsf with ⟨_, h⟩ | ⟨_, h⟩ <;> omega

/-- The location loop only grows the sweep counters. -/
theorem auditLocations_statsLe (env : Env) (cfg : Conf) (device : String) :
    ∀ (keys : List String) (acc : AuditorState × Trace),
      statsLe acc.1
        ((keys.foldl (auditLocationStep env cfg device) acc)).1 := by
  intro keys
  induction keys with
  | nil => intro acc; exact statsLe_refl _
  | cons k rest ih =>
    intro acc
    exact statsLe_trans (auditLocationStep_statsLe env cfg device acc k)
      (ih (auditLocationStep env cfg device acc k))

/-- The location loop leaves the device counters untouched. -/
theorem auditLocations_device_counters (env : Env) (cfg : Conf)
    (device : String) :
    ∀ (keys : List String) (acc : AuditorState × Trace),
      ((keys.foldl (auditLocationStep env cfg device) acc)).1.device_success
        = acc.1.device_success ∧
      ((keys.foldl (auditLocationStep env cfg device)
        acc)).1.device_failures = acc.1.device_failures := by
  intro keys
  induction keys with
  | nil => intro acc; exact ⟨rfl, rfl⟩
  | cons k rest ih =>
    intro acc
    obtain ⟨i1, i2⟩ := ih (auditLocationStep env cfg device acc k)
    obtain ⟨_, _, c1, c2, _⟩ := auditLocationStep_counts env cfg device acc k
    rw [List.foldl_cons]
    exact ⟨i1.trans c1, i2.trans c2⟩

/-- The location loop leaves the audited-devices trace untouched. -/
theorem auditLocations_devices (env : Env) (cfg : Conf) (device : String) :
    ∀ (keys : List String) (acc : AuditorState × Trace),
      ((keys.foldl (auditLocationStep env cfg device) acc)).2.devices =
        acc.2.devices := by
  intro keys
  induction keys with
  | nil => intro acc; rfl
  | cons k rest ih =>
    intro acc
    rw [List.foldl_cons, ih (auditLocationStep env cfg device acc k)]
    exact (auditLocationStep_trace env cfg device acc k).1

/-- The location loop keeps the rate-limiter invariant: every recorded
call uses the byte budget. -/
theorem auditLocations_rl (env : Env) (cfg : Conf) (device : String) :
    ∀ (keys : List String) (acc : AuditorState × Trace),
      (∀ p ∈ acc.2.rlCalls, p.1 = cfg.max_bytes_per_second) →
      ∀ p ∈ ((keys.foldl (auditLocationStep env cfg device) acc)).2.rlCalls,
        p.1 = cfg.max_bytes_per_second := by
  intro keys
  induction keys with
  | nil => intro acc h; exact h
  | cons k rest ih =>
    intro acc h
    rw [List.foldl_cons]
    refine ih (auditLocationStep env cfg device acc k) ?_
    intro p hp
    rw [(auditLocationStep_trace env cfg device acc k).2.2] at hp
    rcases List.mem_append.mp hp with hmem | hmem
    · exact h p hmem
    · exact audit_object_rl env cfg _ device k p hmem

/-- An unreachable device changes nothing but device_failures (by exactly
one) and the audited-devices trace. -/
theorem audit_device_unavailable (env : Env) (cfg : Conf)
    (st : AuditorState) (tr : Trace) (device : String)
    (h : env.scan device = ScanResult.unavailable) :
    audit_device env cfg st tr device =
      ({ st with device_failures := st.device_failures + 1 },
       { tr with devices := tr.devices ++ [device] }) := by
  simp [audit_device, _audit_device, h]

/-- A device whose enumeration completes: the location loop runs and then
device_success is incremented. -/
theorem audit_device_ok (env : Env) (cfg : Conf) (st : AuditorState)
    (tr : Trace) (device : String) (keys : List String)
    (h : env.scan device = ScanResult.ok keys) :
    audit_device env cfg st tr device =
      ({ (auditLocations env cfg device keys st tr).1 with
         device_success :=
           (auditLocations env cfg device keys st tr).1.device_success + 1 },
       { (auditLocations env cfg device keys st tr).2 with
         devices :=
           (auditLocations env cfg device keys st tr).2.devices ++
             [device] }) := by
  simp [audit_device, _audit_device, h]

/-- A device whose enumeration raises after some keys: the location loop
runs and then device_failures is incremented. -/
theorem audit_device_raiseAfter (env : Env) (cfg : Conf)
    (st : AuditorState) (tr : Trace) (device : String) (keys : List String)
    (h : env.scan device = ScanResult.raiseAfter keys) :
    audit_device env cfg st tr device =
      ({ (auditLocations env cfg device keys st tr).1 with
         device_failures :=
           (auditLocations env cfg device keys st tr).1.device_failures +
             1 },
       { (auditLocations env cfg device keys st tr).2 with
         devices :=
           (auditLocations env cfg device keys st tr).2.devices ++
             [device] }) := by
  simp [audit_device, _audit_device, h]

/-- Bumping device_success only grows the counters. -/
theorem statsLe_bump_success (a : AuditorState) :
    statsLe a { a with device_success := a.device_success + 1 } :=
  ⟨le_refl _, le_refl _, le_refl _, Nat.le_succ _, le_refl _, le_refl _,
   le_refl _, le_refl _⟩

/-- Bumping device_failures only grows the counters. -/
theorem statsLe_bump_failures (a : AuditorState) :
    statsLe a { a with device_failures := a.device_failures + 1 } :=
  ⟨le_refl _, le_refl _, le_refl _, le_refl _, Nat.le_succ _, le_refl _,
   le_refl _, le_refl _⟩

/-- Auditing one device only grows the sweep counters. -/
theorem audit_device_statsLe (env : Env) (cfg : Conf) (st : AuditorState)
    (tr : Trace) (device : String) :
    statsLe st (audit_device env cfg st tr device).1 := by
  cases hs : env.scan device with
  | unavailable =>
    rw [audit_device_unavailable env cfg st tr device hs]
    exact statsLe_bump_failures st
  | ok keys =>
    rw [audit_device_ok env cfg st tr device keys hs]
    exact statsLe_trans
      (auditLocations_statsLe env cfg device keys (st, tr))
      (statsLe_bump_success _)
  | raiseAfter keys =>
    rw [audit_device_raiseAfter env cfg st tr device keys hs]
    exact statsLe_trans
      (auditLocations_statsLe env cfg device keys (st, tr))
      (statsLe_bump_failures _)

/-- Auditing one device appends exactly that device to the trace. -/
theorem audit_device_devices (env : Env) (cfg : Conf) (st : AuditorState)
    (tr : Trace) (device : String) :
    (audit_device env cfg st tr device).2.devices =
      tr.devices ++ [device] := by
  cases hs : env.scan device with
  | unavailable => rw [audit_device_unavailable env cfg st tr device hs]
  | ok keys =>
    rw [audit_device_ok env cfg st tr device keys hs]
    simp [auditLocations, auditLocations_devices env cfg device keys
      (st, tr)]
  | raiseAfter keys =>
    rw [audit_device_raiseAfter env cfg st tr device keys hs]
    simp [auditLocations, auditLocations_devices env cfg device keys
      (st, tr)]

/-- The device loop of a sweep only grows the counters. -/
theorem foldDevices_statsLe (env : Env) (cfg : Conf) :
    ∀ (ds : List String) (acc : AuditorState × Trace),
      statsLe acc.1
        ((ds.foldl (fun a d => audit_device env cfg a.1 a.2 d) acc)).1 := by
  intro ds
  induction ds with
  | nil => intro acc; exact statsLe_refl _
  | cons d rest ih =>
    intro acc
    exact statsLe_trans (audit_device_statsLe env cfg acc.1 acc.2 d)
      (ih (audit_device env cfg acc.1 acc.2 d))

/-- The device loop audits exactly the devices it is given, in order. -/
theorem foldDevices_devices (env : Env) (cfg : Conf) :
    ∀ (ds : List String) (acc : AuditorState × Trace),
      ((ds.foldl (fun a d => audit_device env cfg a.1 a.2 d)
        acc)).2.devices = acc.2.devices ++ ds := by
  intro ds
  induction ds with
  | nil => intro acc; simp
  | cons d rest ih =>
    intro acc
    rw [List.foldl_cons, ih (audit_device env cfg acc.1 acc.2 d),
        audit_device_devices env cfg acc.1 acc.2 d]
    simp

/-- A sweep audits exactly the resolved device list. -/
theorem run_once_devices (env : Env) (cfg : Conf) (st : AuditorState)
    (ov : List String) :
    (run_once env cfg st ov).2.devices = devicesFor env ov := by
  simp only [run_once]
  rw [foldDevices_devices env cfg (devicesFor env ov)
    (reset_stats, Trace.empty)]
  rfl

/-- Auditing a device keeps the rate-limiter invariant. -/
theorem audit_device_rl (env : Env) (cfg : Conf) (st : AuditorState)
    (tr : Trace) (device : String)
    (h : ∀ p ∈ tr.rlCalls, p.1 = cfg.max_bytes_per_second) :
    ∀ p ∈ (audit_device env cfg st tr device).2.rlCalls,
      p.1 = cfg.max_bytes_per_second := by
  cases hs : env.scan device with
  | unavailable =>
    rw [audit_device_unavailable env cfg st tr device hs]
    intro p hp
    exact h p hp
  | ok keys =>
    rw [audit_device_ok env cfg st tr device keys hs]
    intro p hp
    refine auditLocations_rl env cfg device keys (st, tr) h p ?_
    simpa [auditLocations] using hp
  | raiseAfter keys =>
    rw [audit_device_raiseAfter env cfg st tr device keys hs]
    intro p hp
    refine auditLocations_rl env cfg device keys (st, tr) h p ?_
    simpa [auditLocations] using hp

/-- The device loop keeps the rate-limiter invariant. -/
theorem foldDevices_rl (env : Env) (cfg : Conf) :
    ∀ (ds : List String) (acc : AuditorState × Trace),
      (∀ p ∈ acc.2.rlCalls, p.1 = cfg.max_bytes_per_second) →
      ∀ p ∈ ((ds.foldl (fun a d => audit_device env cfg a.1 a.2 d)
        acc)).2.rlCalls, p.1 = cfg.max_bytes_per_second := by
  intro ds
  induction ds with
  | nil => intro acc h; exact h
  | cons d rest ih =>
    intro acc h
    rw [List.foldl_cons]
    exact ih (audit_device env cfg acc.1 acc.2 d)
      (audit_device_rl env cfg acc.1 acc.2 d h)

/-- Every rate-limiter invocation of a sweep uses the byte budget. -/
theorem run_once_rl (env : Env) (cfg : Conf) (st : AuditorState)
    (ov : List String) :
    ∀ p ∈ (run_once env cfg st ov).2.rlCalls,
      p.1 = cfg.max_bytes_per_second := by
  simp only [run_once]
  refine foldDevices_rl env cfg (devicesFor env ov)
    (reset_stats, Trace.empty) ?_
  intro p hp
  simp [Trace.empty] at hp

/-- On an uncorrupted environment no object audit quarantines. -/
theorem good_audit_object_quarantines (env : Env) (cfg : Conf)
    (st : AuditorState) (device key : String) (hu : UncorruptedEnv env) :
    (audit_object env cfg st device key).2.2.quarantines = 0 := by
  rw [audit_object_snd]
  by_cases hp : (env.getDiskfile device key).present = true
  · obtain ⟨hcl, het⟩ := hu device key hp
    rw [_audit_object_passed env cfg st device key hp hcl het]
  · have hp2 : (env.getDiskfile device key).present = false := by
      revert hp; cases (env.getDiskfile device key).present <;> simp
    rw [_audit_object_notFound env cfg st device key hp2]

/-- On an uncorrupted environment the location loop adds no
quarantines. -/
theorem good_auditLocations_quarantines (env : Env) (cfg : Conf)
    (device : String) (hu : UncorruptedEnv env) :
    ∀ (keys : List String) (acc : AuditorState × Trace),
      ((keys.foldl (auditLocationStep env cfg device) acc)).2.quarantines =
        acc.2.quarantines := by
  intro keys
  induction keys with
  | nil => intro acc; rfl
  | cons k rest ih =>
    intro acc
    rw [List.foldl_cons, ih (auditLocationStep env cfg device acc k),
        (auditLocationStep_trace env cfg device acc k).2.1,
        good_audit_object_quarantines env cfg _ device k hu]
    exact Nat.add_zero _

/-- On an uncorrupted environment auditing a device adds no
quarantines. -/
theorem good_audit_device_quarantines (env : Env) (cfg : Conf)
    (st : AuditorState) (tr : Trace) (device : String)
    (hu : UncorruptedEnv env) :
    (audit_device env cfg st tr device).2.quarantines = tr.quarantines
    := by
  cases hs : env.scan device with
  | unavailable => rw [audit_device_unavailable env cfg st tr device hs]
  | ok keys =>
    rw [audit_device_ok env cfg st tr device keys hs]
    simpa [auditLocations] using
      good_auditLocations_quarantines env cfg device hu keys (st, tr)
  | raiseAfter keys =>
    rw [audit_device_raiseAfter env cfg st tr device keys hs]
    simpa [auditLocations] using
      good_auditLocations_quarantines env cfg device hu keys (st, tr)

/-- On an uncorrupted environment the device loop adds no quarantines. -/
theorem good_foldDevices_quarantines (env : Env) (cfg : Conf)
    (hu : UncorruptedEnv env) :
    ∀ (ds : List String) (acc : AuditorState × Trace),
      ((ds.foldl (fun a d => audit_device env cfg a.1 a.2 d)
        acc)).2.quarantines = acc.2.quarantines := by
  intro ds
  induction ds with
  | nil => intro acc; rfl
  | cons d rest ih =>
    intro acc
    rw [List.foldl_cons, ih (audit_device env cfg acc.1 acc.2 d),
        good_audit_device_quarantines env cfg acc.1 acc.2 d hu]

/-- A sweep depends on the configuration only through
max_bytes_per_second: the files budget is never read. -/
theorem run_once_cfg (env : Env) (f1 f2 b : Rat) (st : AuditorState)
    (ov : List String) :
    run_once env ⟨f1, b⟩ st ov = run_once env ⟨f2, b⟩ st ov := by
  have hstream : ∀ (cs : List Chunk) (st0 : AuditorState),
      streamChunks env ⟨f1, b⟩ st0 cs = streamChunks env ⟨f2, b⟩ st0 cs := by
    intro cs
    induction cs with
    | nil => intro st0; rfl
    | cons c rest ih => intro st0; simp [streamChunks, chunkStep, ih]
  have hobj : ∀ (st0 : AuditorState) (d k : String),
      _audit_object env ⟨f1, b⟩ st0 d k =
        _audit_object env ⟨f2, b⟩ st0 d k := by
    intro st0 d k
    simp only [_audit_object, hstream]
  have haud : ∀ (st0 : AuditorState) (d k : String),
      audit_object env ⟨f1, b⟩ st0 d k = audit_object env ⟨f2, b⟩ st0 d k
      := by
    intro st0 d k
    simp only [audit_object, hobj]
  have hstep : auditLocationStep env ⟨f1, b⟩ = auditLocationStep env ⟨f2, b⟩
      := by
    funext device acc k
    simp only [auditLocationStep, haud]
  have hdev : ∀ (st0 : AuditorState) (tr : Trace) (d : String),
      audit_device env ⟨f1, b⟩ st0 tr d = audit_device env ⟨f2, b⟩ st0 tr d
      := by
    intro st0 tr d
    simp only [audit_device, _audit_device, auditLocations, hstep]
  have hfn : (fun (a : AuditorState × Trace) d =>
               audit_device env ⟨f1, b⟩ a.1 a.2 d) =
             (fun (a : AuditorState × Trace) d =>
               audit_device env ⟨f2, b⟩ a.1 a.2 d) := by
    funext a d
    exact hdev a.1 a.2 d
  simp only [run_once, hfn]

/-- C4 counterexample: the override list is audited verbatim, without the
set-deduplication the claim asserts: with override [d1, d1] the device d1
is audited twice, not once. -/
theorem override_dedup_counterexample :
    (run_once sampleEnv sampleConf reset_stats
      ["d1", "d1"]).2.devices.count "d1" = 2 ∧
    ¬ ((run_once sampleEnv sampleConf reset_stats
      ["d1", "d1"]).2.devices.count "d1" = 1) := by
  have h := run_once_devices sampleEnv sampleConf reset_stats ["d1", "d1"]
  constructor
  · rw [h]; rfl
  · rw [h]; decide

/-- C4 amended: with a non-empty override list the audited devices are
exactly that list verbatim — duplicates included, one audit per
occurrence; with an empty override list they are the deduplicated union of
the truthy device names over every storage policy's ring. -/
theorem device_resolution_amended (env : Env) (cfg : Conf)
    (st : AuditorState) :
    (∀ ov : List String, ov ≠ [] →
      (run_once env cfg st ov).2.devices = ov) ∧
    (run_once env cfg st []).2.devices = _get_devices env ∧
    (_get_devices env).Nodup ∧
    (∀ d : String, d ∈ _get_devices env ↔
      ∃ p ∈ env.policies, some d ∈ env.ringDevs p) := by
  refine ⟨fun ov hov => ?_, ?_, List.nodup_dedup _, fun d => ?_⟩
  · rw [run_once_devices env cfg st ov]
    cases ov with
    | nil => exact absurd rfl hov
    | cons a rest => rfl
  · rw [run_once_devices env cfg st []]
    rfl
  · simp only [_get_devices, List.mem_dedup, List.mem_filterMap,
      List.mem_flatten, List.mem_map, id_eq]
    constructor
    · rintro ⟨a, ⟨l, ⟨p, hp, rfl⟩, hal⟩, rfl⟩
      exact ⟨p, hp, hal⟩
    · rintro ⟨p, hp, hd⟩
      exact ⟨some d, ⟨env.ringDevs p, ⟨p, hp, rfl⟩, hd⟩, rfl⟩

/-- Witness for the amended C4 at the sample environment. -/
theorem device_resolution_amended_witness :
    ((["d1", "d1"] : List String) ≠ [] ∧
     (run_once sampleEnv sampleConf reset_stats ["d1", "d1"]).2.devices =
       ["d1", "d1"]) ∧
    (run_once sampleEnv sampleConf reset_stats []).2.devices =
      _get_devices sampleEnv ∧
    (_get_devices sampleEnv).Nodup ∧
    ("dev1" ∈ _get_devices sampleEnv ↔
      ∃ p ∈ sampleEnv.policies, some "dev1" ∈ sampleEnv.ringDevs p) :=
  ⟨⟨by decide,
    (device_resolution_amended sampleEnv sampleConf reset_stats).1
      ["d1", "d1"] (by decide)⟩,
   (device_resolution_amended sampleEnv sampleConf reset_stats).2.1,
   (device_resolution_amended sampleEnv sampleConf reset_stats).2.2.1,
   (device_resolution_amended sampleEnv sampleConf reset_stats).2.2.2
     "dev1"⟩

/-- C5: a device whose connection raises the device-unavailable condition
increments device.failures by exactly one with nothing else changed; no
exception escapes the sweep loop — every device of the resolved list is
audited; and a device whose enumeration completes is counted
device.success (device.failures untouched) regardless of how many of its
objects failed or were quarantined. -/
theorem device_failure_containment (env : Env) (cfg : Conf)
    (st : AuditorState) (tr : Trace) (device : String) :
    (env.scan device = ScanResult.unavailable →
      audit_device env cfg st tr device =
        ({ st with device_failures := st.device_failures + 1 },
         { tr with devices := tr.devices ++ [device] })) ∧
    (∀ keys, env.scan device = ScanResult.ok keys →
      (audit_device env cfg st tr device).1.device_success =
        st.device_success + 1 ∧
      (audit_device env cfg st tr device).1.device_failures =
        st.device_failures) ∧
    (∀ ov, (run_once env cfg st ov).2.devices = devicesFor env ov) := by
  refine ⟨fun h => audit_device_unavailable env cfg st tr device h,
          fun keys h => ?_, fun ov => run_once_devices env cfg st ov⟩
  rw [audit_device_ok env cfg st tr device keys h]
  obtain ⟨h1, h2⟩ :=
    auditLocations_device_counters env cfg device keys (st, tr)
  have h1a : (auditLocations env cfg device keys st tr).1.device_success =
      st.device_success := by simpa [auditLocations] using h1
  have h2a : (auditLocations env cfg device keys st tr).1.device_failures =
      st.device_failures := by simpa [auditLocations] using h2
  exact ⟨by simp [h1a], by simp [h2a]⟩

/-- Witness for C5: the unreachable sample device counts one
device.failure, the reachable one counts one device.success although two
of its four objects fail, and the sweep still audits the full list. -/
theorem device_failure_containment_witness :
    (sampleEnv.scan "dev-u" = ScanResult.unavailable ∧
     audit_device sampleEnv sampleConf reset_stats Trace.empty "dev-u" =
       ({ reset_stats with
          device_failures := reset_stats.device_failures + 1 },
        { Trace.empty with
          devices := Trace.empty.devices ++ ["dev-u"] })) ∧
    (sampleEnv.scan "dev1" =
       ScanResult.ok ["good", "short", "badetag", "gone"] ∧
     (audit_device sampleEnv sampleConf reset_stats Trace.empty
       "dev1").1.device_success = reset_stats.device_success + 1 ∧
     (audit_device sampleEnv sampleConf reset_stats Trace.empty
       "dev1").1.device_failures = reset_stats.device_failures) ∧
    (run_once sampleEnv sampleConf reset_stats ["dev1", "dev-u"]).2.devices
      = devicesFor sampleEnv ["dev1", "dev-u"] :=
  ⟨⟨rfl,
    (device_failure_containment sampleEnv sampleConf reset_stats
      Trace.empty "dev-u").1 rfl⟩,
   ⟨rfl,
    (device_failure_containment sampleEnv sampleConf reset_stats
      Trace.empty "dev1").2.1 ["good", "short", "badetag", "gone"] rfl⟩,
   (device_failure_containment sampleEnv sampleConf reset_stats
     Trace.empty "dev1").2.2 ["dev1", "dev-u"]⟩

/-- C6: each run_forever iteration publishes the measured elapsed time to
the recon sink under the object_audit_sweep key before any sleeping, then
sleeps exactly interval - elapsed when elapsed < interval (30 seconds) and
proceeds immediately with no sleep event otherwise. -/
theorem sweep_scheduling_interval (elapsed : Rat) :
    interval = 30 ∧
    (elapsed < interval →
      run_forever_iteration elapsed =
        [SchedEvent.sweep,
         SchedEvent.reconDump "object_audit_sweep" elapsed,
         SchedEvent.sleepFor (interval - elapsed),
         SchedEvent.resetStats]) ∧
    (interval ≤ elapsed →
      run_forever_iteration elapsed =
        [SchedEvent.sweep,
         SchedEvent.reconDump "object_audit_sweep" elapsed,
         SchedEvent.resetStats]) := by
  refine ⟨rfl, fun h => ?_, fun h => ?_⟩
  · simp [run_forever_iteration, h]
  · simp [run_forever_iteration, not_lt.mpr h]

/-- Witness for C6 at a short (10s) and an overlong (45s) sweep. -/
theorem sweep_scheduling_interval_witness :
    ((10 : Rat) < interval ∧
     run_forever_iteration 10 =
       [SchedEvent.sweep,
        SchedEvent.reconDump "object_audit_sweep" 10,
        SchedEvent.sleepFor (interval - 10),
        SchedEvent.resetStats]) ∧
    (interval ≤ (45 : Rat) ∧
     run_forever_iteration 45 =
       [SchedEvent.sweep,
        SchedEvent.reconDump "object_audit_sweep" 45,
        SchedEvent.resetStats]) :=
  ⟨⟨by decide, (sweep_scheduling_interval 10).2.1 (by decide)⟩,
   ⟨by decide, (sweep_scheduling_interval 45).2.2 (by decide)⟩⟩

/-- C7: every per-object step and per-device call of a sweep only grows
the stats counters; run_once discards whatever auditor state it inherits
(reset_stats), its device loop starts from the all-zero counters, and
those grow monotonically from zero across the sweep. -/
theorem stats_monotone_and_reset (env : Env) (cfg : Conf) :
    (∀ (acc : AuditorState × Trace) (device key : String),
      statsLe acc.1 (auditLocationStep env cfg device acc key).1) ∧
    (∀ (st : AuditorState) (tr : Trace) (device : String),
      statsLe st (audit_device env cfg st tr device).1) ∧
    (∀ (st1 st2 : AuditorState) (ov : List String),
      run_once env cfg st1 ov = run_once env cfg st2 ov) ∧
    (∀ (st : AuditorState) (ov : List String),
      statsLe reset_stats (run_once env cfg st ov).1) ∧
    (reset_stats.found_objects = 0 ∧ reset_stats.success = 0 ∧
     reset_stats.failures = 0 ∧ reset_stats.device_success = 0 ∧
     reset_stats.device_failures = 0 ∧ reset_stats.bytes_processed = 0 ∧
     reset_stats.total_bytes_processed = 0 ∧
     reset_stats.total_files_processed = 0) := by
  refine ⟨fun acc device key =>
            auditLocationStep_statsLe env cfg device acc key,
          fun st tr device => audit_device_statsLe env cfg st tr device,
          fun st1 st2 ov => rfl,
          fun st ov => ?_,
          rfl, rfl, rfl, rfl, rfl, rfl, rfl, rfl⟩
  exact foldDevices_statsLe env cfg (devicesFor env ov)
    (reset_stats, Trace.empty)

/-- C8: the files-per-second budget is dead configuration: two runs that
differ only in max_files_per_second produce identical sweeps — same
outcomes, counters and trace — and every rate-limiter invocation uses the
byte budget. -/
theorem files_per_second_unused (env : Env) (cfg1 cfg2 : Conf)
    (st : AuditorState) (ov : List String)
    (hb : cfg1.max_bytes_per_second = cfg2.max_bytes_per_second) :
    run_once env cfg1 st ov = run_once env cfg2 st ov ∧
    (∀ p ∈ (run_once env cfg1 st ov).2.rlCalls,
      p.1 = cfg1.max_bytes_per_second) := by
  constructor
  · cases cfg1
    cases cfg2
    cases hb
    exact run_once_cfg env _ _ _ st ov
  · exact run_once_rl env cfg1 st ov

/-- Witness for C8: configurations with files budgets 1 and 2 but equal
byte budget yield the same sweep on the sample environment. -/
theorem files_per_second_unused_witness :
    (({ max_files_per_second := 1, max_bytes_per_second := 5 } :
        Conf).max_bytes_per_second =
     ({ max_files_per_second := 2, max_bytes_per_second := 5 } :
        Conf).max_bytes_per_second) ∧
    run_once sampleEnv
        { max_files_per_second := 1, max_bytes_per_second := 5 }
        reset_stats ["dev1"] =
      run_once sampleEnv
        { max_files_per_second := 2, max_bytes_per_second := 5 }
        reset_stats ["dev1"] ∧
    (∀ p ∈ (run_once sampleEnv
        { max_files_per_second := 1, max_bytes_per_second := 5 }
        reset_stats ["dev1"]).2.rlCalls,
      p.1 = ({ max_files_per_second := 1, max_bytes_per_second := 5 } :
        Conf).max_bytes_per_second) :=
  ⟨rfl,
   (files_per_second_unused sampleEnv
     { max_files_per_second := 1, max_bytes_per_second := 5 }
     { max_files_per_second := 2, max_bytes_per_second := 5 }
     reset_stats ["dev1"] rfl).1,
   (files_per_second_unused sampleEnv
     { max_files_per_second := 1, max_bytes_per_second := 5 }
     { max_files_per_second := 2, max_bytes_per_second := 5 }
     reset_stats ["dev1"] rfl).2⟩

/-- C9: over an unchanged, uncorrupted device set two consecutive sweeps
are identical — in particular their success counts are equal — and the
sweep invokes no quarantine. -/
theorem sweep_idempotent_on_clean (env : Env) (cfg : Conf)
    (st : AuditorState) (ov : List String) (hu : UncorruptedEnv env) :
    run_once env cfg (run_once env cfg st ov).1 ov =
      run_once env cfg st ov ∧
    (run_once env cfg (run_once env cfg st ov).1 ov).1.success =
      (run_once env cfg st ov).1.success ∧
    (run_once env cfg st ov).2.quarantines = 0 := by
  refine ⟨rfl, rfl, ?_⟩
  simp only [run_once]
  rw [good_foldDevices_quarantines env cfg hu (devicesFor env ov)
    (reset_stats, Trace.empty)]
  rfl

/-- Witness for C9: the all-good environment is uncorrupted and its sweeps
are idempotent with zero quarantines. -/
theorem sweep_idempotent_on_clean_witness :
    UncorruptedEnv goodEnv ∧
    (run_once goodEnv sampleConf
        (run_once goodEnv sampleConf reset_stats []).1 [] =
      run_once goodEnv sampleConf reset_stats [] ∧
     (run_once goodEnv sampleConf
        (run_once goodEnv sampleConf reset_stats []).1 []).1.success =
      (run_once goodEnv sampleConf reset_stats []).1.success ∧
     (run_once goodEnv sampleConf reset_stats []).2.quarantines = 0) :=
  ⟨fun _ _ _ => ⟨rfl, rfl⟩,
   sweep_idempotent_on_clean goodEnv sampleConf reset_stats []
     (fun _ _ _ => ⟨rfl, rfl⟩)⟩

/-- C10: each enumerated object increments found_objects exactly once and
exactly one of success and failures exactly once, so found_objects =
success + failures is preserved after every enumerated object. -/
theorem found_objects_accounting (env : Env) (cfg : Conf)
    (device : String) (acc : AuditorState × Trace) (key : String) :
    (auditLocationStep env cfg device acc key).1.found_objects =
      acc.1.found_objects + 1 ∧
    (((auditLocationStep env cfg device acc key).1.success =
        acc.1.success + 1 ∧
      (auditLocationStep env cfg device acc key).1.failures =
        acc.1.failures) ∨
     ((auditLocationStep env cfg device acc key).1.success =
        acc.1.success ∧
      (auditLocationStep env cfg device acc key).1.failures =
        acc.1.failures + 1)) ∧
    (acc.1.found_objects = acc.1.success + acc.1.failures →
      (auditLocationStep env cfg device acc key).1.found_objects =
        (auditLocationStep env cfg device acc key).1.success +
          (auditLocationStep env cfg device acc key).1.failures) := by
  obtain ⟨h1, h2, _⟩ := auditLocationStep_counts env cfg device acc key
  refine ⟨h1, h2, fun hinv => ?_⟩
  rcases h2 with ⟨hs, hf⟩ | ⟨hs, hf⟩ <;> omega

/-- Witness for C10: from the all-zero state the invariant holds after a
step. -/
theorem found_objects_accounting_witness :
    (reset_stats.found_objects = reset_stats.success +
      reset_stats.failures) ∧
    (auditLocationStep sampleEnv sampleConf "dev1"
        (reset_stats, Trace.empty) "good").1.found_objects =
      (auditLocationStep sampleEnv sampleConf "dev1"
        (reset_stats, Trace.empty) "good").1.success +
        (auditLocationStep sampleEnv sampleConf "dev1"
          (reset_stats, Trace.empty) "good").1.failures :=
  ⟨rfl,
   (found_objects_accounting sampleEnv sampleConf "dev1"
     (reset_stats, Trace.empty) "good").2.2 rfl⟩

end KineticSwift
